import Mathlib

/-!
Shallow embedding of the graph connection/validation engine of the
react-graph-tree editor: the data model (`src/types/graph.ts`), the pure
graph utilities (`src/utils/graph.ts`), the store operations
(`src/stores/graphStore.ts`), and the coordinate-transform formulas
(`GraphEditor.screenToWorldPosition`, `NodeCard` drag math,
`GraphCanvas.handleWheel`).

Modelling conventions:
* Numbers (positions, zoom, offsets) are rationals: the source computes with
  JS doubles; the claims under study are exact algebraic identities or
  discrete graph facts, so we work in the idealized field.
* JS objects may lack a property (or hold `undefined`): fields that are
  sometimes absent at runtime (`allowMultipleInputs` on host-supplied raw
  nodes, `contextMenuItems`) are modelled as `Option`; `none` means the
  property is absent/`undefined`.  JS truthiness on such a field is
  `(·.getD false)`.
* `generateId` draws a random token (`Math.random().toString(36).slice(2,9)`);
  operations that create nodes/edges take the freshly generated id as an
  explicit argument.
* Callbacks: the store invokes `onGraphChange`/`onNodeChange` when they are
  registered; operations here return the list of notification events they
  emit (the registered-callback plumbing carries no graph logic).
-/

namespace GraphTree

/-- World / screen point (`Position` in `types/graph.ts`). -/
structure Pos where
  x : ℚ
  y : ℚ
deriving DecidableEq, Repr

/-- Payload object `Record<string, unknown>`; modelled as a string map, the
core never inspects it. -/
abbrev Payload := List (String × String)

/-- `Node` from `types/graph.ts`.  `allowMultipleInputs` is declared
`boolean` in TS but the runtime object may lack the property (host-supplied
raw nodes); `contextMenuItems` is optional.  `none` = property absent. -/
structure Node where
  id : String
  type : String
  title : String
  position : Pos
  payload : Payload
  allowMultipleInputs : Option Bool
  contextMenuItems : Option Unit
deriving DecidableEq, Repr

/-- `Edge` from `types/graph.ts`. -/
structure Edge where
  id : String
  sourceNodeId : String
  targetNodeId : String
deriving DecidableEq, Repr

/-- `ViewState` from `types/graph.ts`. -/
structure ViewState where
  zoom : ℚ
  offset : Pos
deriving DecidableEq, Repr

/-- `Graph` from `types/graph.ts`. -/
structure Graph where
  nodes : List Node
  edges : List Edge
  viewState : ViewState
deriving DecidableEq, Repr

/-- `createNode` from `utils/graph.ts`; the generated id is passed in. -/
def createNode (type : String) (position : Pos) (allowMultipleInputs : Option Bool)
    (freshId : String) : Node :=
  { id := freshId
    type := type
    title := type ++ " Node"
    position := position
    payload := []
    allowMultipleInputs := allowMultipleInputs
    contextMenuItems := none }

/-- `createEdge` from `utils/graph.ts`; the generated id is passed in. -/
def createEdge (sourceNodeId targetNodeId : String) (freshId : String) : Edge :=
  { id := freshId, sourceNodeId := sourceNodeId, targetNodeId := targetNodeId }

/-- Result object of `validateConnection`. -/
structure ValidationResult where
  valid : Bool
  reason : Option String
deriving DecidableEq, Repr

/-- The inner recursive closure `wouldCreateCycle(startNodeId, currentNodeId,
visited)` of `validateConnection` (`utils/graph.ts` lines 67-88), with an
explicit fuel to express the recursion.  Each recursive call extends
`visited` (`new Set(visited)` gives every branch its own copy, which a
persistent list models exactly), and a call whose current node is already in
`visited` returns immediately, so the recursion depth is bounded by the
number of distinct ids that can enter `visited` — all drawn from the initial
current node plus edge targets — plus one; `edges.length + 2` fuel therefore
reproduces the unbounded JS recursion.  The soundness lemmas below are
proved for every fuel value, so nothing rests on the particular bound. -/
def wouldCreateCycleFuel (edges : List Edge) (startNodeId : String) :
    Nat → String → List String → Bool
  | 0, _, _ => false
  | fuel + 1, currentNodeId, visited =>
    if visited.contains currentNodeId then
      currentNodeId == startNodeId
    else
      (edges.filter (fun e => e.sourceNodeId == currentNodeId)).any
        (fun e => wouldCreateCycleFuel edges startNodeId fuel e.targetNodeId
          (currentNodeId :: visited))

/-- `wouldCreateCycle` as `validateConnection` invokes it:
`wouldCreateCycle(targetNodeId, sourceNodeId, new Set())`. -/
def wouldCreateCycle (edges : List Edge) (startNodeId currentNodeId : String) : Bool :=
  wouldCreateCycleFuel edges startNodeId (edges.length + 2) currentNodeId []

/-- `validateConnection` from `utils/graph.ts` lines 33-95.  The checks run
in source order: self-loop, duplicate (source,target) edge, missing target,
single-input capacity, cycle.  `.find`-based existence tests become `.any`;
JS truthiness of the possibly-absent `allowMultipleInputs` is `getD false`. -/
def validateConnection (sourceNodeId targetNodeId : String) (graph : Graph) :
    ValidationResult :=
  if sourceNodeId == targetNodeId then
    { valid := false, reason := some "Cannot connect node to itself" }
  else if graph.edges.any (fun e =>
      e.sourceNodeId == sourceNodeId && e.targetNodeId == targetNodeId) then
    { valid := false, reason := some "Connection already exists" }
  else
    match graph.nodes.find? (fun n => n.id == targetNodeId) with
    | none => { valid := false, reason := some "Target node not found" }
    | some targetNode =>
      if !(targetNode.allowMultipleInputs.getD false) &&
          graph.edges.any (fun e => e.targetNodeId == targetNodeId) then
        { valid := false, reason := some "This node can only have one input connection" }
      else if wouldCreateCycle graph.edges targetNodeId sourceNodeId then
        { valid := false, reason := some "Connection would create a cycle" }
      else
        { valid := true, reason := none }

/-- `removeNode` from `utils/graph.ts` lines 97-105. -/
def removeNode (nodeId : String) (graph : Graph) : Graph :=
  { graph with
    nodes := graph.nodes.filter (fun n => n.id != nodeId)
    edges := graph.edges.filter (fun e =>
      e.sourceNodeId != nodeId && e.targetNodeId != nodeId) }

/-- `removeEdge` from `utils/graph.ts` lines 107-112. -/
def removeEdge (edgeId : String) (graph : Graph) : Graph :=
  { graph with edges := graph.edges.filter (fun e => e.id != edgeId) }

/-- `updateNodePosition` from `utils/graph.ts` lines 114-125. -/
def updateNodePosition (nodeId : String) (position : Pos) (graph : Graph) : Graph :=
  { graph with
    nodes := graph.nodes.map (fun n =>
      if n.id == nodeId then { n with position := position } else n) }

/-- `NodeTypeConfig` from `types/graph.ts`; `allowMultipleInputs` is optional. -/
structure NodeTypeConfig where
  id : String
  label : String
  color : String
  allowMultipleInputs : Option Bool
deriving DecidableEq, Repr

/-- `Port` from `types/graph.ts` (the field `type` is renamed `portType`). -/
structure Port where
  nodeId : String
  portType : String
deriving DecidableEq, Repr

/-- `ConnectionState` from `types/graph.ts`. -/
structure ConnectionState where
  isConnecting : Bool
  sourcePort : Option Port
  currentPosition : Option Pos
deriving DecidableEq, Repr

/-- The store's state (`stores/graphStore.ts`): the graph, the selection, the
gesture state and the node-type catalogue (`undefined` until the editor sets
it).  Context-menu state and the registered-callback fields are omitted — no
claim concerns them; the notifications an operation would deliver through the
registered callbacks are returned as an event list instead. -/
structure StoreState where
  graph : Graph
  selectedNodeId : Option String
  connectionState : ConnectionState
  nodeTypeConfigMap : Option (List NodeTypeConfig)
deriving DecidableEq, Repr

/-- One callback invocation: `onGraphChange(rawGraph, node?, edges?)` or
`onNodeChange(nodeId, changeType, data?)` (the `data` argument carries no
graph state and is not modelled). -/
inductive CbEvent where
  | graphChange (graph : Graph) (node : Option Node) (edges : Option (List Edge))
  | nodeChange (nodeId : String) (changeType : String)
deriving DecidableEq, Repr

/-- `convertGraphToRawGraph` from `stores/graphStore.ts` lines 672-678: each
node goes through `({ ...rawNode }) => rawNode`, a rest-spread that copies
every own property of the object — it projects nothing away. -/
def convertGraphToRawGraph (graph : Graph) : Graph :=
  { graph with nodes := graph.nodes.map (fun rawNode => rawNode) }

/-- `callGraphChangeCallback` from `stores/graphStore.ts` lines 681-696: the
registered `onGraphChange` receives `convertGraphToRawGraph(newGraph)` plus
the implicated entities. -/
def callGraphChangeCallback (newGraph : Graph) (node : Option Node)
    (edges : Option (List Edge)) : CbEvent :=
  .graphChange (convertGraphToRawGraph newGraph) node edges

/-- The `updates` argument of `updateNode` (`Partial<Node>`): each field is
present or not. -/
structure NodeUpdates where
  id : Option String
  title : Option String
  payload : Option Payload
  position : Option Pos
  allowMultipleInputs : Option Bool
deriving DecidableEq, Repr

/-- JS spread `{ ...node, ...updates }`. -/
def mergeNode (n : Node) (u : NodeUpdates) : Node :=
  { n with
    id := u.id.getD n.id
    title := u.title.getD n.title
    payload := u.payload.getD n.payload
    position := u.position.getD n.position
    allowMultipleInputs :=
      match u.allowMultipleInputs with
      | some b => some b
      | none => n.allowMultipleInputs }

/-- `addNode` from `stores/graphStore.ts` lines 726-749.  The resolved
`allowMultipleInputs` is `configMap.get(type)?.allowMultipleInputs ?? false`
when the catalogue is set, `false` otherwise. -/
def addNode (type : String) (position : Pos) (titleOption : Option String)
    (freshId : String) (s : StoreState) : StoreState × List CbEvent :=
  let allow : Bool :=
    match s.nodeTypeConfigMap with
    | none => false
    | some m => (((m.find? (fun c => c.id == type)).bind
        (fun c => c.allowMultipleInputs)).getD false)
  let created := createNode type position (some allow) freshId
  let newNode :=
    match titleOption with
    | some t => { created with title := t }
    | none => created
  let newGraph := { s.graph with nodes := s.graph.nodes ++ [newNode] }
  ({ s with graph := newGraph },
    [callGraphChangeCallback newGraph (some newNode) none])

/-- `removeNodeById` from `stores/graphStore.ts` lines 751-767. -/
def removeNodeById (nodeId : String) (s : StoreState) : StoreState × List CbEvent :=
  let removedNode := s.graph.nodes.find? (fun n => n.id == nodeId)
  let newGraph := removeNode nodeId s.graph
  ({ s with
      graph := newGraph
      selectedNodeId :=
        if s.selectedNodeId = some nodeId then none else s.selectedNodeId },
    [callGraphChangeCallback newGraph removedNode none])

/-- `updateNode` from `stores/graphStore.ts` lines 769-792: shallow merge,
then `onNodeChange` for a title or (else) payload update, then the graph
change notification. -/
def updateNode (nodeId : String) (updates : NodeUpdates) (s : StoreState) :
    StoreState × List CbEvent :=
  let newGraph := { s.graph with
    nodes := s.graph.nodes.map (fun n =>
      if n.id == nodeId then mergeNode n updates else n) }
  let updatedNode := newGraph.nodes.find? (fun n => n.id == nodeId)
  let nodeEvents : List CbEvent :=
    match updates.title, updates.payload with
    | some _, _ => [.nodeChange nodeId "title"]
    | none, some _ => [.nodeChange nodeId "payload"]
    | none, none => []
  ({ s with graph := newGraph },
    nodeEvents ++ [callGraphChangeCallback newGraph updatedNode none])

/-- `moveNode` from `stores/graphStore.ts` lines 794-803: updates the stored
position, then notifies `onNodeChange(nodeId, "position", position)` — it
never invokes the graph change callback. -/
def moveNode (nodeId : String) (position : Pos) (s : StoreState) :
    StoreState × List CbEvent :=
  ({ s with graph := updateNodePosition nodeId position s.graph },
    [.nodeChange nodeId "position"])

/-- `duplicateNode` from `stores/graphStore.ts` lines 805-831. -/
def duplicateNode (nodeId : String) (freshId : String) (s : StoreState) :
    StoreState × List CbEvent :=
  match s.graph.nodes.find? (fun n => n.id == nodeId) with
  | none => (s, [])
  | some originalNode =>
    let created := createNode originalNode.type
      { x := originalNode.position.x + 50, y := originalNode.position.y + 50 }
      originalNode.allowMultipleInputs freshId
    let newNode := { created with
      payload := originalNode.payload
      title := originalNode.title ++ " (copy)" }
    let newGraph := { s.graph with nodes := s.graph.nodes ++ [newNode] }
    ({ s with graph := newGraph },
      [callGraphChangeCallback newGraph (some newNode) none])

/-- `disconnectAllFromNode` from `stores/graphStore.ts` lines 833-852. -/
def disconnectAllFromNode (nodeId : String) (s : StoreState) :
    StoreState × List CbEvent :=
  let disconnectedNode := s.graph.nodes.find? (fun n => n.id == nodeId)
  let removedEdges := s.graph.edges.filter (fun e =>
    e.sourceNodeId == nodeId || e.targetNodeId == nodeId)
  let newGraph := { s.graph with
    edges := s.graph.edges.filter (fun e =>
      e.sourceNodeId != nodeId && e.targetNodeId != nodeId) }
  ({ s with graph := newGraph },
    [callGraphChangeCallback newGraph disconnectedNode (some removedEdges)])

/-- `addEdge` from `stores/graphStore.ts` lines 854-876: validate, and on
success insert the new edge and notify; on failure log and return `false`
with no mutation. -/
def addEdge (sourceNodeId targetNodeId : String) (freshId : String)
    (s : StoreState) : Bool × StoreState × List CbEvent :=
  let validation := validateConnection sourceNodeId targetNodeId s.graph
  if validation.valid then
    let newEdge := createEdge sourceNodeId targetNodeId freshId
    let newGraph := { s.graph with edges := s.graph.edges ++ [newEdge] }
    (true, { s with graph := newGraph },
      [callGraphChangeCallback newGraph none (some [newEdge])])
  else
    (false, s, [])

/-- `removeEdgeById` from `stores/graphStore.ts` lines 878-891. -/
def removeEdgeById (edgeId : String) (s : StoreState) : StoreState × List CbEvent :=
  let removedEdge := s.graph.edges.find? (fun e => e.id == edgeId)
  let newGraph := removeEdge edgeId s.graph
  ({ s with graph := newGraph },
    [callGraphChangeCallback newGraph none
      (match removedEdge with | some e => some [e] | none => none)])

/-- `startConnection` from `stores/graphStore.ts` lines 920-927. -/
def startConnection (sourceNodeId : String) (position : Pos) (s : StoreState) :
    StoreState :=
  { s with connectionState :=
    { isConnecting := true
      sourcePort := some { nodeId := sourceNodeId, portType := "output" }
      currentPosition := some position } }

/-- `completeConnection` from `stores/graphStore.ts` lines 937-950.  The JS
guard `if (!sourceNodeId) return false` fires on a missing source port and on
the empty string (both falsy) — on that path the gesture state is left as it
was.  Otherwise `addEdge` runs and the gesture is cleared either way. -/
def completeConnection (targetNodeId : String) (freshId : String)
    (s : StoreState) : Bool × StoreState × List CbEvent :=
  match s.connectionState.sourcePort with
  | none => (false, s, [])
  | some p =>
    if p.nodeId = "" then (false, s, [])
    else
      let r := addEdge p.nodeId targetNodeId freshId s
      (r.1,
        { r.2.1 with connectionState :=
          { isConnecting := false, sourcePort := none, currentPosition := none } },
        r.2.2)

/-- `cancelConnection` from `stores/graphStore.ts` lines 952-955. -/
def cancelConnection (s : StoreState) : StoreState :=
  { s with connectionState :=
    { isConnecting := false, sourcePort := none, currentPosition := none } }

/-- One store operation (the mutation interface quantified over by the
invariant claims); random ids appear as explicit arguments. -/
inductive Op where
  | addNode (type : String) (position : Pos) (titleOption : Option String)
      (freshId : String)
  | removeNodeById (nodeId : String)
  | updateNode (nodeId : String) (updates : NodeUpdates)
  | moveNode (nodeId : String) (position : Pos)
  | duplicateNode (nodeId : String) (freshId : String)
  | disconnectAllFromNode (nodeId : String)
  | addEdge (sourceNodeId targetNodeId freshId : String)
  | removeEdgeById (edgeId : String)
deriving DecidableEq, Repr

/-- Dispatch a store operation. -/
def applyOp (op : Op) (s : StoreState) : StoreState × List CbEvent :=
  match op with
  | .addNode t p topt fid => addNode t p topt fid s
  | .removeNodeById nid => removeNodeById nid s
  | .updateNode nid u => updateNode nid u s
  | .moveNode nid p => moveNode nid p s
  | .duplicateNode nid fid => duplicateNode nid fid s
  | .disconnectAllFromNode nid => disconnectAllFromNode nid s
  | .addEdge src tgt fid => (addEdge src tgt fid s).2
  | .removeEdgeById eid => removeEdgeById eid s

/-- Run a sequence of store operations. -/
def applyOps (ops : List Op) (s : StoreState) : StoreState :=
  ops.foldl (fun st op => (applyOp op st).1) s

/-- `screenToWorldPosition` from `GraphEditor.tsx` lines 379-395.  The input
point is canvas-relative (the handler subtracts `rect.left`/`rect.top`); per
the source comment the CSS transform is `scale() translate()`, so the offset
is already scaled. -/
def screenToWorldPosition (p : Pos) (vs : ViewState) : Pos :=
  { x := (p.x - vs.offset.x * vs.zoom) / vs.zoom
    y := (p.y - vs.offset.y * vs.zoom) / vs.zoom }

/-- The world-position-to-screen formula of `NodeCard.handleMouseDown`
(`NodeCard.tsx` lines 115-132): `screen = position * zoom + offset`. -/
def nodeScreenPosition (worldPos : Pos) (vs : ViewState) : Pos :=
  { x := worldPos.x * vs.zoom + vs.offset.x
    y := worldPos.y * vs.zoom + vs.offset.y }

/-- The screen-to-world conversion of `NodeCard.handleMouseMove`
(`NodeCard.tsx` lines 134-149) — the same formula appears in
`GraphEditor.handleContextMenu`: `world = (screen - offset) / zoom`. -/
def dragScreenToWorld (p : Pos) (vs : ViewState) : Pos :=
  { x := (p.x - vs.offset.x) / vs.zoom
    y := (p.y - vs.offset.y) / vs.zoom }

/-- `handleWheel` from `GraphCanvas` (`index.ts` document, lines 270-297):
zoom factor 0.975 or 1.025 by wheel direction, zoom clamped to [0.5, 2.0],
and the offset recomputed as `mouse - (mouse - offset) * (newZoom/zoom)`.
The mouse point is canvas-relative. -/
def handleWheel (mouse : Pos) (deltaYPositive : Bool) (vs : ViewState) : ViewState :=
  let zoomFactor : ℚ := if deltaYPositive then 975/1000 else 1025/1000
  let newZoom : ℚ := max (1/2) (min 2 (vs.zoom * zoomFactor))
  { zoom := newZoom
    offset :=
      { x := mouse.x - (mouse.x - vs.offset.x) * (newZoom / vs.zoom)
        y := mouse.y - (mouse.y - vs.offset.y) * (newZoom / vs.zoom) } }

/-- One directed edge step of the graph's edge relation. -/
def EdgeStep (edges : List Edge) (a b : String) : Prop :=
  ∃ e ∈ edges, e.sourceNodeId = a ∧ e.targetNodeId = b

/-- Reachability along directed edges (reflexive-transitive closure). -/
def Reach (edges : List Edge) : String → String → Prop :=
  Relation.ReflTransGen (EdgeStep edges)

/-- A directed graph has a cycle when some edge step can be closed by a
directed path back to its source. -/
def HasCycle (edges : List Edge) : Prop :=
  ∃ a b, EdgeStep edges a b ∧ Reach edges b a

/-- Acyclicity of an edge set. -/
def Acyclic (edges : List Edge) : Prop := ¬ HasCycle edges

/-- Whatever `wouldCreateCycle` can report, it reports about a node reachable
from the node the traversal starts at: a `true` result means the traversal's
start argument (`validateConnection` passes the candidate target there, the
DFS begins at the candidate source) is reachable from the DFS origin.  Proved
for every fuel value. -/
theorem wouldCreateCycleFuel_true_reach
    (edges : List Edge) (startNodeId : String) :
    ∀ (fuel : Nat) (cur : String) (visited : List String),
      wouldCreateCycleFuel edges startNodeId fuel cur visited = true →
      Reach edges cur startNodeId := by
  intro fuel
  induction fuel with
  | zero => intro cur visited h; simp [wouldCreateCycleFuel] at h
  | succ n ih =>
    intro cur visited h
    rw [wouldCreateCycleFuel] at h
    by_cases hv : visited.contains cur = true
    · rw [if_pos hv] at h
      have hcur : cur = startNodeId := by simpa using h
      exact hcur ▸ Relation.ReflTransGen.refl
    · rw [if_neg hv, List.any_eq_true] at h
      obtain ⟨e, he, hrec⟩ := h
      have hmem := List.mem_filter.mp he
      have hsrc : e.sourceNodeId = cur := by
        have := hmem.2
        simpa using this
      have hstep : EdgeStep edges cur e.targetNodeId :=
        ⟨e, hmem.1, hsrc, rfl⟩
      exact Relation.ReflTransGen.head hstep (ih e.targetNodeId (cur :: visited) hrec)

/-- `convertGraphToRawGraph` copies every node property, so as a value the
"raw" graph it hands to the host is the stored graph itself. -/
theorem convertGraphToRawGraph_eq (g : Graph) : convertGraphToRawGraph g = g := by
  have h : g.nodes.map (fun rawNode => rawNode) = g.nodes := List.map_id' g.nodes
  simp [convertGraphToRawGraph, h]

/-- A test node: all node fixtures in the concrete scenarios below share this
shape, differing in id and input capacity. -/
def mkTestNode (id : String) (allow : Bool) : Node :=
  { id := id
    type := "proc"
    title := id
    position := { x := 0, y := 0 }
    payload := []
    allowMultipleInputs := some allow
    contextMenuItems := none }

/-- The default view state of the store. -/
def defaultView : ViewState := { zoom := 1, offset := { x := 0, y := 0 } }

/-- An idle store state over a given graph. -/
def mkStoreState (g : Graph) : StoreState :=
  { graph := g
    selectedNodeId := none
    connectionState := { isConnecting := false, sourcePort := none, currentPosition := none }
    nodeTypeConfigMap := none }

/-- Graph for the C1 scenario: nodes `s`, `t` and the single edge `t → s`,
so adding `s → t` would close the two-cycle `s → t → s`. -/
def c1Graph : Graph :=
  { nodes := [mkTestNode "s" false, mkTestNode "t" false]
    edges := [{ id := "e1", sourceNodeId := "t", targetNodeId := "s" }]
    viewState := defaultView }

/-- C1: for every graph G and node pair (s,t) such that a directed path from
t back to s already exists in G, `validateConnection(s,t,G)` is claimed to
return `{valid:false}` with the cycle reason.  The code does the opposite:
in `c1Graph` the edge `t → s` is a direct path from t to s, yet the
validator returns `{valid:true}` (its DFS starts at the candidate *source*
and can only succeed by revisiting the target, which never happens in an
acyclic graph), and `addEdge` then happily inserts the cycle-closing edge. -/
theorem validateConnection_accepts_cycle_closing_edge :
    EdgeStep c1Graph.edges "t" "s" ∧
    validateConnection "s" "t" c1Graph = { valid := true, reason := none } ∧
    (addEdge "s" "t" "e2" (mkStoreState c1Graph)).1 = true := by
  refine ⟨⟨{ id := "e1", sourceNodeId := "t", targetNodeId := "s" }, ?_, rfl, rfl⟩, ?_, ?_⟩
  · simp [c1Graph]
  · rfl
  · rfl

/-- Store state for the C2 scenario: acyclic graph with nodes A, B and the
single edge `B → A`. -/
def c2State : StoreState :=
  mkStoreState
    { nodes := [mkTestNode "A" false, mkTestNode "B" false]
      edges := [{ id := "e1", sourceNodeId := "B", targetNodeId := "A" }]
      viewState := defaultView }

/-- C2: acyclicity is claimed to be a reachable-state invariant of the store
operations.  It is not: from the acyclic `c2State`, the single operation
`addEdge("A","B")` succeeds (the broken cycle check accepts it) and produces
a graph containing the cycle `A → B → A`. -/
theorem addEdge_reaches_cyclic_state :
    Acyclic c2State.graph.edges ∧
    ¬ Acyclic (applyOp (.addEdge "A" "B" "e2") c2State).1.graph.edges := by
  constructor
  · rintro ⟨a, b, ⟨e, he, hsrc, htgt⟩, hreach⟩
    have he' : e = { id := "e1", sourceNodeId := "B", targetNodeId := "A" } := by
      simpa [c2State, mkStoreState] using he
    subst he'
    subst hsrc
    subst htgt
    rcases hreach.cases_head with heq | ⟨c, ⟨e2, he2, hs2, _⟩, _⟩
    · exact absurd heq (by decide)
    · have he2' : e2 = { id := "e1", sourceNodeId := "B", targetNodeId := "A" } := by
        simpa [c2State, mkStoreState] using he2
      rw [he2'] at hs2
      exact absurd hs2 (by decide)
  · intro hacy
    have hedges : (applyOp (.addEdge "A" "B" "e2") c2State).1.graph.edges =
        [{ id := "e1", sourceNodeId := "B", targetNodeId := "A" },
         { id := "e2", sourceNodeId := "A", targetNodeId := "B" }] := by decide
    exact hacy ⟨"A", "B",
      ⟨{ id := "e2", sourceNodeId := "A", targetNodeId := "B" },
        by rw [hedges]; simp, rfl, rfl⟩,
      Relation.ReflTransGen.single
        ⟨{ id := "e1", sourceNodeId := "B", targetNodeId := "A" },
          by rw [hedges]; simp, rfl, rfl⟩⟩

/-- C4: the round trip composing `screenToWorldPosition` with the
node-dragging world-to-screen formula is claimed to be the identity for
every view state.  The two formulas use different compositing orders
(`screenToWorldPosition` divides a zoom-scaled offset out, `NodeCard`
multiplies the world position and adds the unscaled offset), so the round
trip is `p + (1 - zoom) * offset`: at zoom 2 with offset (10,0) the screen
point (0,0) comes back as (-10,0). -/
theorem screen_world_round_trip_fails :
    nodeScreenPosition
        (screenToWorldPosition { x := 0, y := 0 }
          { zoom := 2, offset := { x := 10, y := 0 } })
        { zoom := 2, offset := { x := 10, y := 0 } } =
      { x := -10, y := 0 } ∧
    ({ x := -10, y := 0 } : Pos) ≠ { x := 0, y := 0 } := by
  constructor
  · simp only [screenToWorldPosition, nodeScreenPosition, Pos.mk.injEq]
    norm_num
  · intro h
    exact absurd (congrArg Pos.x h) (by norm_num)

/-- C5: after a wheel zoom at pointer p, the world point that
`screenToWorldPosition` assigns to p is claimed to be unchanged.  It is not:
the wheel handler's offset update keeps `(p - offset)/zoom` (the conversion
used by node dragging and the context menu) invariant, not
`screenToWorldPosition`'s `(p - offset*zoom)/zoom`.  Concretely, zooming in
at pointer (0,0) from view (zoom 1, offset (10,0)) moves the
`screenToWorldPosition` image from (-10,0) to (-10.25,0), while the dragging
conversion's image stays at (-10,0). -/
theorem wheel_zoom_moves_screenToWorld_point :
    screenToWorldPosition { x := 0, y := 0 }
        (handleWheel { x := 0, y := 0 } false
          { zoom := 1, offset := { x := 10, y := 0 } }) ≠
      screenToWorldPosition { x := 0, y := 0 }
        { zoom := 1, offset := { x := 10, y := 0 } } ∧
    dragScreenToWorld { x := 0, y := 0 }
        (handleWheel { x := 0, y := 0 } false
          { zoom := 1, offset := { x := 10, y := 0 } }) =
      dragScreenToWorld { x := 0, y := 0 }
        { zoom := 1, offset := { x := 10, y := 0 } } := by
  constructor
  · intro h
    have hx := congrArg Pos.x h
    simp only [screenToWorldPosition, handleWheel] at hx
    norm_num [min_def, max_def] at hx
  · simp only [dragScreenToWorld, handleWheel, Pos.mk.injEq]
    norm_num [min_def, max_def]

/-- Graph for the C7 scenario: one node whose internal
`allowMultipleInputs` is resolved to `true`. -/
def c7Graph : Graph :=
  { nodes := [mkTestNode "n" true], edges := [], viewState := defaultView }

/-- C7: the graph handed to `onGraphChange` is claimed to carry nodes with
the internal-only fields stripped.  `convertGraphToRawGraph` maps each node
through `({ ...rawNode }) => rawNode`, a rest-spread with no destructured
fields, which copies every property: the delivered node still carries
`allowMultipleInputs` (here `some true`; a stripped node would carry
`none`). -/
theorem convertGraphToRawGraph_strips_nothing :
    (convertGraphToRawGraph c7Graph).nodes.map (fun n => n.allowMultipleInputs) =
      [some true] ∧
    (convertGraphToRawGraph c7Graph).nodes = c7Graph.nodes := by
  exact ⟨rfl, by rw [convertGraphToRawGraph_eq]⟩

/-- C10: `removeNodeById(N)` removes node N, removes exactly the edges whose
source or target is N, and leaves the other nodes and the view state
untouched. -/
theorem removeNodeById_cascades_exactly (s : StoreState) (nodeId : String)
    (_h : ∃ n ∈ s.graph.nodes, n.id = nodeId) :
    (∀ n, n ∈ (removeNodeById nodeId s).1.graph.nodes ↔
      n ∈ s.graph.nodes ∧ n.id ≠ nodeId) ∧
    (∀ e, e ∈ (removeNodeById nodeId s).1.graph.edges ↔
      e ∈ s.graph.edges ∧ e.sourceNodeId ≠ nodeId ∧ e.targetNodeId ≠ nodeId) ∧
    (removeNodeById nodeId s).1.graph.viewState = s.graph.viewState := by
  refine ⟨?_, ?_, rfl⟩
  · intro n
    show n ∈ s.graph.nodes.filter (fun n => n.id != nodeId) ↔ _
    rw [List.mem_filter]
    simp [bne_iff_ne]
  · intro e
    show e ∈ s.graph.edges.filter
        (fun e => e.sourceNodeId != nodeId && e.targetNodeId != nodeId) ↔ _
    rw [List.mem_filter]
    simp [bne_iff_ne, and_assoc]

/-- Store state for the C10 witness: two nodes and three edges, two of which
touch node A. -/
def c10State : StoreState :=
  mkStoreState
    { nodes := [mkTestNode "A" false, mkTestNode "B" true]
      edges := [{ id := "e1", sourceNodeId := "A", targetNodeId := "B" },
                { id := "e2", sourceNodeId := "B", targetNodeId := "B" },
                { id := "e3", sourceNodeId := "B", targetNodeId := "A" }]
      viewState := defaultView }

/-- Witness for C10 at a concrete graph: node A is present, and after
`removeNodeById("A")` the edge `e2` (touching only B) survives while the
edges touching A are gone. -/
theorem removeNodeById_cascades_exactly_witness :
    (∃ n ∈ c10State.graph.nodes, n.id = "A") ∧
    ({ id := "e2", sourceNodeId := "B", targetNodeId := "B" } ∈
        (removeNodeById "A" c10State).1.graph.edges ↔
      ({ id := "e2", sourceNodeId := "B", targetNodeId := "B" } : Edge) ∈
          c10State.graph.edges ∧ "B" ≠ "A" ∧ "B" ≠ "A") := by
  refine ⟨by decide, ?_⟩
  exact (removeNodeById_cascades_exactly c10State "A" (by decide)).2.1
    { id := "e2", sourceNodeId := "B", targetNodeId := "B" }

/-- Graph for the C3 counterexample: `t` sits on the pre-existing two-cycle
`t → b → t` and is reachable from `s` through `a`, but no directed path
leads from `t` back to `s`, so adding `s → t` closes no new cycle. -/
def c3Graph : Graph :=
  { nodes := [mkTestNode "s" false, mkTestNode "a" false,
              mkTestNode "t" true, mkTestNode "b" false]
    edges := [{ id := "e1", sourceNodeId := "s", targetNodeId := "a" },
              { id := "e2", sourceNodeId := "a", targetNodeId := "t" },
              { id := "e3", sourceNodeId := "t", targetNodeId := "b" },
              { id := "e4", sourceNodeId := "b", targetNodeId := "t" }]
    viewState := defaultView }

/-- In `c3Graph` every node reachable from `t` is `t` or `b`. -/
theorem c3Graph_reach_from_t (x : String) (h : Reach c3Graph.edges "t" x) :
    x = "t" ∨ x = "b" := by
  induction h with
  | refl => exact Or.inl rfl
  | tail _ hstep ih =>
    obtain ⟨e, he, hsrc, htgt⟩ := hstep
    have he4 : e = { id := "e1", sourceNodeId := "s", targetNodeId := "a" } ∨
        e = { id := "e2", sourceNodeId := "a", targetNodeId := "t" } ∨
        e = { id := "e3", sourceNodeId := "t", targetNodeId := "b" } ∨
        e = { id := "e4", sourceNodeId := "b", targetNodeId := "t" } := by
      simpa [c3Graph] using he
    rcases ih with h1 | h1 <;> subst h1 <;>
      rcases he4 with h2 | h2 | h2 | h2 <;> subst h2 <;> simp_all

/-- C3's counterexample: in `c3Graph`, for the pair (s,t) none of the five
spec rejection conditions applies — s ≠ t, no (s,t) edge exists, t exists,
t allows multiple inputs, and no path leads from t back to s (so the
candidate edge closes no cycle) — yet `validateConnection` returns
`{valid:false}` with the cycle reason: its traversal from s revisits t via
the pre-existing cycle `t → b → t`. -/
theorem validateConnection_rejects_without_matching_condition :
    "s" ≠ "t" ∧
    (∀ e ∈ c3Graph.edges, ¬(e.sourceNodeId = "s" ∧ e.targetNodeId = "t")) ∧
    (∃ n ∈ c3Graph.nodes, n.id = "t") ∧
    (∀ n ∈ c3Graph.nodes, n.id = "t" → n.allowMultipleInputs.getD false = true) ∧
    ¬ Reach c3Graph.edges "t" "s" ∧
    validateConnection "s" "t" c3Graph =
      { valid := false, reason := some "Connection would create a cycle" } := by
  refine ⟨by decide, by decide, by decide, by decide, ?_, by rfl⟩
  intro h
  rcases c3Graph_reach_from_t "s" h with h1 | h1 <;> exact absurd h1 (by decide)

/-- C3 (amended): `validateConnection` applies its five rejection checks in
source order — self-loop, duplicate (s,t) edge, missing target, single-input
capacity, cycle — with the first matching check determining the returned
reason; and whenever s ≠ t, t exists, no (s,t) edge exists, t allows another
input, and t is not reachable from s along existing edges, it returns
`{valid:true}` with no reason. -/
theorem validateConnection_check_order_and_valid :
    (∀ (t : String) (g : Graph),
      validateConnection t t g =
        { valid := false, reason := some "Cannot connect node to itself" }) ∧
    (∀ (s t : String) (g : Graph), s ≠ t →
      (∃ e ∈ g.edges, e.sourceNodeId = s ∧ e.targetNodeId = t) →
      validateConnection s t g =
        { valid := false, reason := some "Connection already exists" }) ∧
    (∀ (s t : String) (g : Graph), s ≠ t →
      (∀ e ∈ g.edges, ¬(e.sourceNodeId = s ∧ e.targetNodeId = t)) →
      (∀ n ∈ g.nodes, n.id ≠ t) →
      validateConnection s t g =
        { valid := false, reason := some "Target node not found" }) ∧
    (∀ (s t : String) (g : Graph), s ≠ t →
      (∀ e ∈ g.edges, ¬(e.sourceNodeId = s ∧ e.targetNodeId = t)) →
      (∀ n ∈ g.nodes, n.id = t → n.allowMultipleInputs.getD false = false) →
      (∃ n ∈ g.nodes, n.id = t) →
      (∃ e ∈ g.edges, e.targetNodeId = t) →
      validateConnection s t g =
        { valid := false,
          reason := some "This node can only have one input connection" }) ∧
    (∀ (s t : String) (g : Graph), s ≠ t →
      (∀ e ∈ g.edges, ¬(e.sourceNodeId = s ∧ e.targetNodeId = t)) →
      (∃ n ∈ g.nodes, n.id = t) →
      (∀ n ∈ g.nodes, n.id = t →
        (n.allowMultipleInputs.getD false = true ∨ ∀ e ∈ g.edges, e.targetNodeId ≠ t)) →
      ¬ Reach g.edges s t →
      validateConnection s t g = { valid := true, reason := none }) := by
  refine ⟨?_, ?_, ?_, ?_, ?_⟩
  · intro t g
    simp [validateConnection]
  · intro s t g hst hdup
    have h1 : (s == t) = false := beq_eq_false_iff_ne.mpr hst
    have h2 : g.edges.any
        (fun e => e.sourceNodeId == s && e.targetNodeId == t) = true := by
      rw [List.any_eq_true]
      obtain ⟨e, he, h3, h4⟩ := hdup
      exact ⟨e, he, by simp [h3, h4]⟩
    simp [validateConnection, h1, h2]
  · intro s t g hst hdup hmiss
    have h1 : (s == t) = false := beq_eq_false_iff_ne.mpr hst
    have h2 : g.edges.any
        (fun e => e.sourceNodeId == s && e.targetNodeId == t) = false := by
      rw [List.any_eq_false]
      intro e he
      simp only [Bool.and_eq_true, beq_iff_eq]
      exact fun hc => hdup e he hc
    have h3 : g.nodes.find? (fun n => n.id == t) = none := by
      rw [List.find?_eq_none]
      intro n hn
      simpa using hmiss n hn
    simp [validateConnection, h1, h2, h3]
  · intro s t g hst hdup hcap hex hin
    have h1 : (s == t) = false := beq_eq_false_iff_ne.mpr hst
    have h2 : g.edges.any
        (fun e => e.sourceNodeId == s && e.targetNodeId == t) = false := by
      rw [List.any_eq_false]
      intro e he
      simp only [Bool.and_eq_true, beq_iff_eq]
      exact fun hc => hdup e he hc
    have hsome : (g.nodes.find? (fun n => n.id == t)).isSome := by
      rw [List.find?_isSome]
      obtain ⟨n, hn, hid⟩ := hex
      exact ⟨n, hn, by simp [hid]⟩
    obtain ⟨n₀, hfind⟩ := Option.isSome_iff_exists.mp hsome
    have hmem := List.mem_of_find?_eq_some hfind
    have hid : n₀.id = t := by simpa using List.find?_some hfind
    have hallow : n₀.allowMultipleInputs.getD false = false := hcap n₀ hmem hid
    have hany : g.edges.any (fun e => e.targetNodeId == t) = true := by
      rw [List.any_eq_true]
      obtain ⟨e, he, htgt⟩ := hin
      exact ⟨e, he, by simp [htgt]⟩
    simp [validateConnection, h1, h2, hfind, hallow, hany]
  · intro s t g hst hdup hex hcap hreach
    have h1 : (s == t) = false := beq_eq_false_iff_ne.mpr hst
    have h2 : g.edges.any
        (fun e => e.sourceNodeId == s && e.targetNodeId == t) = false := by
      rw [List.any_eq_false]
      intro e he
      simp only [Bool.and_eq_true, beq_iff_eq]
      exact fun hc => hdup e he hc
    have hsome : (g.nodes.find? (fun n => n.id == t)).isSome := by
      rw [List.find?_isSome]
      obtain ⟨n, hn, hid⟩ := hex
      exact ⟨n, hn, by simp [hid]⟩
    obtain ⟨n₀, hfind⟩ := Option.isSome_iff_exists.mp hsome
    have hmem := List.mem_of_find?_eq_some hfind
    have hid : n₀.id = t := by simpa using List.find?_some hfind
    have hcyc : wouldCreateCycle g.edges t s = false := by
      by_contra hc
      rw [Bool.not_eq_false] at hc
      exact hreach (wouldCreateCycleFuel_true_reach g.edges t _ s [] hc)
    have hcapf : (!(n₀.allowMultipleInputs.getD false) &&
        g.edges.any (fun e => e.targetNodeId == t)) = false := by
      rcases hcap n₀ hmem hid with hal | hnone
      · simp [hal]
      · have : g.edges.any (fun e => e.targetNodeId == t) = false := by
          rw [List.any_eq_false]
          intro e he
          simpa using hnone e he
        simp [this]
    simp [validateConnection, h1, h2, hfind, hcapf, hcyc]

/-- Graph for the C3 witness: two isolated nodes. -/
def c3wGraph : Graph :=
  { nodes := [mkTestNode "u" false, mkTestNode "v" false]
    edges := []
    viewState := defaultView }

/-- Witness for the amended C3 at a concrete graph: with two isolated nodes,
connecting u to v is accepted. -/
theorem validateConnection_check_order_and_valid_witness :
    validateConnection "u" "v" c3wGraph = { valid := true, reason := none } := by
  refine validateConnection_check_order_and_valid.2.2.2.2 "u" "v" c3wGraph
    (by decide) (by decide) (by decide) (by decide) ?_
  intro h
  rcases h.cases_head with heq | ⟨c, hstep, _⟩
  · exact absurd heq (by decide)
  · obtain ⟨e, he, _⟩ := hstep
    simp [c3wGraph] at he

/-- Is an event an `onGraphChange` invocation? -/
def isGraphChangeEvent : CbEvent → Bool
  | .graphChange _ _ _ => true
  | .nodeChange _ _ => false

/-- Number of `onGraphChange` invocations in an event list. -/
def countGraphChange (events : List CbEvent) : Nat :=
  (events.filter isGraphChangeEvent).length

/-- Store state for the C6 counterexample: a single node at the origin. -/
def c6State : StoreState :=
  mkStoreState
    { nodes := [mkTestNode "n" false], edges := [], viewState := defaultView }

/-- C6's counterexample: `moveNode` mutates the stored graph (the node's
position changes) but invokes `onGraphChange` zero times, not once — it only
fires `onNodeChange(nodeId, "position", ...)`. -/
theorem moveNode_skips_graph_change_callback :
    countGraphChange (applyOp (.moveNode "n" { x := 1, y := 2 }) c6State).2 = 0 ∧
    (applyOp (.moveNode "n" { x := 1, y := 2 }) c6State).1.graph.nodes.map
      (fun n => n.position) = [{ x := 1, y := 2 }] ∧
    c6State.graph.nodes.map (fun n => n.position) = [{ x := 0, y := 0 }] ∧
    ({ x := 1, y := 2 } : Pos) ≠ { x := 0, y := 0 } := by
  refine ⟨rfl, rfl, rfl, ?_⟩
  intro h
  exact absurd (congrArg Pos.x h) (by norm_num)

/-- C6 (amended): every mutating store operation except `moveNode` invokes
`onGraphChange` exactly once, and the graph delivered to the callback is the
post-mutation stored graph (for `duplicateNode` provided the node exists,
for `addEdge` provided validation succeeds; `updateNode` may first fire one
`onNodeChange`).  `moveNode` updates the stored position but notifies only
through `onNodeChange("position")`. -/
theorem mutations_notify_once_with_post_graph :
    (∀ (t : String) (p : Pos) (topt : Option String) (fid : String) (s : StoreState),
      ∃ n, (addNode t p topt fid s).2 =
        [.graphChange (addNode t p topt fid s).1.graph (some n) none]) ∧
    (∀ (nid : String) (s : StoreState),
      ∃ optn, (removeNodeById nid s).2 =
        [.graphChange (removeNodeById nid s).1.graph optn none]) ∧
    (∀ (nid : String) (u : NodeUpdates) (s : StoreState),
      ∃ pre optn, (updateNode nid u s).2 =
        pre ++ [.graphChange (updateNode nid u s).1.graph optn none] ∧
        countGraphChange pre = 0) ∧
    (∀ (nid fid : String) (s : StoreState) (n₀ : Node),
      s.graph.nodes.find? (fun n => n.id == nid) = some n₀ →
      ∃ n, (duplicateNode nid fid s).2 =
        [.graphChange (duplicateNode nid fid s).1.graph (some n) none]) ∧
    (∀ (nid : String) (s : StoreState),
      ∃ optn es, (disconnectAllFromNode nid s).2 =
        [.graphChange (disconnectAllFromNode nid s).1.graph optn (some es)]) ∧
    (∀ (src tgt fid : String) (s : StoreState),
      (validateConnection src tgt s.graph).valid = true →
      ∃ es, (addEdge src tgt fid s).2.2 =
        [.graphChange (addEdge src tgt fid s).2.1.graph none (some es)]) ∧
    (∀ (eid : String) (s : StoreState),
      ∃ opte, (removeEdgeById eid s).2 =
        [.graphChange (removeEdgeById eid s).1.graph none opte]) ∧
    (∀ (nid : String) (p : Pos) (s : StoreState),
      (moveNode nid p s).2 = [.nodeChange nid "position"]) := by
  refine ⟨?_, ?_, ?_, ?_, ?_, ?_, ?_, ?_⟩
  · intro t p topt fid s
    simp only [addNode, callGraphChangeCallback, convertGraphToRawGraph_eq]
    exact ⟨_, rfl⟩
  · intro nid s
    simp only [removeNodeById, callGraphChangeCallback, convertGraphToRawGraph_eq]
    exact ⟨_, rfl⟩
  · intro nid u s
    cases h1 : u.title <;> cases h2 : u.payload <;>
      simp only [updateNode, h1, h2, callGraphChangeCallback,
        convertGraphToRawGraph_eq] <;>
      exact ⟨_, _, rfl, rfl⟩
  · intro nid fid s n₀ hfind
    simp only [duplicateNode, hfind, callGraphChangeCallback,
      convertGraphToRawGraph_eq]
    exact ⟨_, rfl⟩
  · intro nid s
    simp only [disconnectAllFromNode, callGraphChangeCallback,
      convertGraphToRawGraph_eq]
    exact ⟨_, _, rfl⟩
  · intro src tgt fid s hv
    simp only [addEdge, hv, if_true, callGraphChangeCallback,
      convertGraphToRawGraph_eq]
    exact ⟨_, rfl⟩
  · intro eid s
    simp only [removeEdgeById, callGraphChangeCallback, convertGraphToRawGraph_eq]
    exact ⟨_, rfl⟩
  · intro nid p s
    rfl

/-- Store state for the C6 witness: two unconnected nodes. -/
def c6wState : StoreState :=
  mkStoreState
    { nodes := [mkTestNode "a" false, mkTestNode "b" false]
      edges := []
      viewState := defaultView }

/-- Witness for the amended C6 at a concrete input: a successful
`addEdge("a","b")` emits exactly one `onGraphChange` invocation. -/
theorem mutations_notify_once_with_post_graph_witness :
    countGraphChange (addEdge "a" "b" "e1" c6wState).2.2 = 1 := by
  obtain ⟨es, hes⟩ :=
    mutations_notify_once_with_post_graph.2.2.2.2.2.1 "a" "b" "e1" c6wState (by rfl)
  rw [hes]
  rfl

/-- Edge target existence: every edge's `targetNodeId` names a node of the
graph. -/
def EdgeTargetsExist (g : Graph) : Prop :=
  ∀ e ∈ g.edges, ∃ n ∈ g.nodes, n.id = e.targetNodeId

/-- An operation does not rewrite node ids: `updateNode` is not given an
`id` field (the spec's `updateNode` merges title/payload fields only). -/
def opKeepsNodeIdsB : Op → Bool
  | .updateNode _ u => u.id.isNone
  | _ => true

/-- Store state for the C8 counterexample: one node `t`, no edges. -/
def c8State : StoreState :=
  mkStoreState
    { nodes := [mkTestNode "t" false], edges := [], viewState := defaultView }

/-- C8's counterexample: `validateConnection` never checks that the *source*
node exists, so `addEdge("ghost","t")` succeeds from `c8State` and the
reached graph contains an edge whose source id names no node. -/
theorem addEdge_inserts_dangling_source :
    (addEdge "ghost" "t" "e1" c8State).1 = true ∧
    ∃ e ∈ (addEdge "ghost" "t" "e1" c8State).2.1.graph.edges,
      ∀ n ∈ (addEdge "ghost" "t" "e1" c8State).2.1.graph.nodes,
        n.id ≠ e.sourceNodeId := by
  refine ⟨rfl, ?_⟩
  refine ⟨{ id := "e1", sourceNodeId := "ghost", targetNodeId := "t" }, ?_, ?_⟩
  · show _ ∈ c8State.graph.edges ++
      [createEdge "ghost" "t" "e1"]
    simp [createEdge]
  · decide

/-- A valid `validateConnection` verdict guarantees that the target node
exists (the third check). -/
theorem validateConnection_valid_target_exists (s t : String) (g : Graph)
    (h : (validateConnection s t g).valid = true) : ∃ n ∈ g.nodes, n.id = t := by
  unfold validateConnection at h
  split at h
  · simp at h
  · split at h
    · simp at h
    · split at h
      · simp at h
      · rename_i targetNode hfind
        exact ⟨targetNode, List.mem_of_find?_eq_some hfind,
          by simpa using List.find?_some hfind⟩

/-- Every single store operation that does not rewrite node ids preserves
edge-target existence. -/
theorem applyOp_preserves_edge_targets (op : Op) (s : StoreState)
    (hop : opKeepsNodeIdsB op = true) (hinv : EdgeTargetsExist s.graph) :
    EdgeTargetsExist (applyOp op s).1.graph := by
  cases op with
  | addNode t p topt fid =>
    intro e he
    simp only [applyOp, addNode] at he ⊢
    obtain ⟨n, hn, hid⟩ := hinv e he
    exact ⟨n, List.mem_append_left _ hn, hid⟩
  | removeNodeById nid =>
    intro e he
    simp only [applyOp, removeNodeById, removeNode] at he ⊢
    rw [List.mem_filter] at he
    obtain ⟨he1, hcond⟩ := he
    have htgt : e.targetNodeId ≠ nid := by
      have := (Bool.and_eq_true _ _).mp hcond
      simpa [bne_iff_ne] using this.2
    obtain ⟨n, hn, hid⟩ := hinv e he1
    refine ⟨n, List.mem_filter.mpr ⟨hn, ?_⟩, hid⟩
    simp [bne_iff_ne, hid, htgt]
  | updateNode nid u =>
    intro e he
    have hid0 : u.id = none := by
      simpa [opKeepsNodeIdsB, Option.isNone_iff_eq_none] using hop
    simp only [applyOp, updateNode] at he ⊢
    obtain ⟨n, hn, hid⟩ := hinv e he
    refine ⟨_, List.mem_map_of_mem _ hn, ?_⟩
    show (if n.id == nid then mergeNode n u else n).id = e.targetNodeId
    split
    · simp [mergeNode, hid0, hid]
    · exact hid
  | moveNode nid p =>
    intro e he
    simp only [applyOp, moveNode, updateNodePosition] at he ⊢
    obtain ⟨n, hn, hid⟩ := hinv e he
    refine ⟨_, List.mem_map_of_mem _ hn, ?_⟩
    show (if n.id == nid then { n with position := p } else n).id = e.targetNodeId
    split
    · exact hid
    · exact hid
  | duplicateNode nid fid =>
    intro e he
    cases hfind : s.graph.nodes.find? (fun n => n.id == nid) with
    | none =>
      simp only [applyOp, duplicateNode, hfind] at he ⊢
      exact hinv e he
    | some n₀ =>
      simp only [applyOp, duplicateNode, hfind] at he ⊢
      obtain ⟨n, hn, hid⟩ := hinv e he
      exact ⟨n, List.mem_append_left _ hn, hid⟩
  | disconnectAllFromNode nid =>
    intro e he
    simp only [applyOp, disconnectAllFromNode] at he ⊢
    rw [List.mem_filter] at he
    exact hinv e he.1
  | addEdge src tgt fid =>
    intro e he
    cases hv : (validateConnection src tgt s.graph).valid with
    | false =>
      simp only [applyOp, addEdge, hv, Bool.false_eq_true, if_false] at he ⊢
      exact hinv e he
    | true =>
      simp only [applyOp, addEdge, hv, if_true] at he ⊢
      rcases List.mem_append.mp he with hold | hnew
      · obtain ⟨n, hn, hid⟩ := hinv e hold
        exact ⟨n, hn, hid⟩
      · have he' : e = createEdge src tgt fid := by simpa using hnew
        obtain ⟨n, hn, hid⟩ := validateConnection_valid_target_exists src tgt s.graph hv
        exact ⟨n, hn, by rw [he']; exact hid⟩
  | removeEdgeById eid =>
    intro e he
    simp only [applyOp, removeEdgeById, removeEdge] at he ⊢
    rw [List.mem_filter] at he
    exact hinv e he.1

/-- C8 (amended): edge-*target* existence is a reachable-state invariant of
the store operations, provided `updateNode` is never used to rewrite a node
id (the spec's `updateNode` merges title/payload only).  Source-endpoint
existence is not invariant — see the counterexample: `addEdge` never checks
that its source exists. -/
theorem store_ops_preserve_edge_target_existence (ops : List Op) (s : StoreState)
    (hids : ∀ op ∈ ops, opKeepsNodeIdsB op = true)
    (hinv : EdgeTargetsExist s.graph) :
    EdgeTargetsExist (applyOps ops s).graph := by
  induction ops generalizing s with
  | nil => exact hinv
  | cons op rest ih =>
    have h1 := hids op (List.mem_cons_self op rest)
    have h2 : ∀ o ∈ rest, opKeepsNodeIdsB o = true :=
      fun o ho => hids o (List.mem_cons_of_mem op ho)
    show EdgeTargetsExist (applyOps rest (applyOp op s).1).graph
    exact ih (applyOp op s).1 h2 (applyOp_preserves_edge_targets op s h1 hinv)

/-- Operation sequence for the C8 witness: build two nodes, connect them,
retitle one, then remove the other (cascading its edge away). -/
def c8wOps : List Op :=
  [.addNode "proc" { x := 0, y := 0 } none "n1",
   .addNode "proc" { x := 3, y := 3 } none "n2",
   .addEdge "n1" "n2" "e1",
   .updateNode "n1" { id := none, title := some "T", payload := none,
                      position := none, allowMultipleInputs := none },
   .removeNodeById "n2"]

/-- Store state for the C8 witness: the empty graph. -/
def c8wState : StoreState :=
  mkStoreState { nodes := [], edges := [], viewState := defaultView }

/-- Witness for the amended C8: running the concrete operation sequence from
the empty graph lands in a state whose edges all target existing nodes. -/
theorem store_ops_preserve_edge_target_existence_witness :
    EdgeTargetsExist (applyOps c8wOps c8wState).graph :=
  store_ops_preserve_edge_target_existence c8wOps c8wState
    (by decide)
    (by intro e he; exact absurd he (by simp [c8wState, mkStoreState]))

/-- Store state for the C9 counterexample: an active gesture whose captured
source id is the empty string (a host-supplied node id can be `""`, and
`generateId` itself returns `""` when `Math.random()` is exactly 0). -/
def c9State : StoreState :=
  { graph := { nodes := [], edges := [], viewState := defaultView }
    selectedNodeId := none
    connectionState :=
      { isConnecting := true
        sourcePort := some { nodeId := "", portType := "output" }
        currentPosition := some { x := 0, y := 0 } }
    nodeTypeConfigMap := none }

/-- C9's counterexample: with an active gesture whose source id is `""`,
`completeConnection` hits the falsy guard `if (!sourceNodeId) return false`
and returns *without* clearing the gesture: the state is still connecting,
although validation of the pair rejects and the claim demands the connection
state be reset. -/
theorem completeConnection_empty_source_stays_connecting :
    c9State.connectionState.isConnecting = true ∧
    (validateConnection "" "x" c9State.graph).valid = false ∧
    (completeConnection "x" "e1" c9State).1 = false ∧
    (completeConnection "x" "e1" c9State).2.1.connectionState.isConnecting = true ∧
    (completeConnection "x" "e1" c9State).2.1.graph = c9State.graph :=
  ⟨rfl, rfl, rfl, rfl, rfl⟩

/-- C9 (amended): provided the captured source id is a non-empty string, a
`completeConnection` whose validation fails returns `false`, leaves the
graph untouched and clears the gesture; and `cancelConnection` always leaves
the graph untouched and returns the gesture to idle. -/
theorem failed_gesture_leaves_graph_and_goes_idle :
    (∀ (t fid : String) (s : StoreState) (p : Port),
      s.connectionState.sourcePort = some p → p.nodeId ≠ "" →
      (validateConnection p.nodeId t s.graph).valid = false →
      (completeConnection t fid s).1 = false ∧
      (completeConnection t fid s).2.1.graph = s.graph ∧
      (completeConnection t fid s).2.1.connectionState.isConnecting = false) ∧
    (∀ s : StoreState,
      (cancelConnection s).graph = s.graph ∧
      (cancelConnection s).connectionState.isConnecting = false) := by
  constructor
  · intro t fid s p hsp hne hv
    refine ⟨?_, ?_, ?_⟩ <;>
      simp [completeConnection, hsp, if_neg hne, addEdge, hv]
  · intro s
    exact ⟨rfl, rfl⟩

/-- Store state for the C9 witness: an active gesture from node id "a" over
the empty graph, so validation fails with a missing target. -/
def c9wState : StoreState :=
  { graph := { nodes := [], edges := [], viewState := defaultView }
    selectedNodeId := none
    connectionState :=
      { isConnecting := true
        sourcePort := some { nodeId := "a", portType := "output" }
        currentPosition := none }
    nodeTypeConfigMap := none }

/-- Witness for the amended C9 at a concrete state: dropping the gesture on
a missing node returns false, keeps the graph, and goes idle. -/
theorem failed_gesture_leaves_graph_and_goes_idle_witness :
    (completeConnection "x" "e9" c9wState).1 = false ∧
    (completeConnection "x" "e9" c9wState).2.1.graph = c9wState.graph ∧
    (completeConnection "x" "e9" c9wState).2.1.connectionState.isConnecting = false :=
  failed_gesture_leaves_graph_and_goes_idle.1 "x" "e9" c9wState
    { nodeId := "a", portType := "output" } rfl (by decide) (by rfl)

end GraphTree
